import Mathlib

/-!
Shallow embedding of scilpy's streamline store (`scilpy/io/streamlines.py`)
and of the checksum verification step of the data fetcher
(`scilpy/io/fetcher.py`).

Streamlines are ordered sequences of 3-D points; a collection of them is
flat-encoded into three parallel arrays (`data`, `offsets`, `lengths`) as by
nibabel's `ArraySequence` (`_data`, `_offsets`, `_lengths`).  Scalars are
modelled as rationals; the float conversion applied when writing to a memmap
of a chosen float width is an explicit `store : ℚ → ℚ` parameter.  Python
exceptions (IndexError from numpy indexing, ValueError from reshape, KeyError
from a missing hdf5 member) are modelled by `Option`/failure values; numpy
integer indexing is modelled with Python semantics, in particular negative
indices wrap from the end.
-/

namespace Scilpy

abbrev Point : Type := ℚ × ℚ × ℚ

abbrev Streamline : Type := List Point

/-- The three scalars of a point, in x, y, z order (one row of the N×3
`_data` array). -/
def point_scalars (p : Point) : List ℚ := [p.1, p.2.1, p.2.2]

/-- Flat scalar sequence of one streamline (its points concatenated). -/
def flatten_streamline (s : Streamline) : List ℚ := s.flatMap point_scalars

/-- `ArraySequence._data`, flattened: the concatenation of all streamlines'
scalars, in collection order. -/
def collection_data (C : List Streamline) : List ℚ := C.flatMap flatten_streamline

/-- `ArraySequence._lengths`: the point-count of each streamline. -/
def collection_lengths (C : List Streamline) : List ℕ := C.map List.length

/-- Exclusive cumulative sum: `offsets[i] = acc + lengths[0] + ... + lengths[i-1]`. -/
def offsets_from_lengths : List ℕ → ℕ → List ℕ
  | [], _ => []
  | l :: ls, acc => acc :: offsets_from_lengths ls (acc + l)

/-- `ArraySequence._offsets`: cumulative point-count of preceding streamlines. -/
def collection_offsets (C : List Streamline) : List ℕ :=
  offsets_from_lengths (collection_lengths C) 0

/-- Python / numpy integer indexing on a 1-D array: a negative index wraps
from the end; an index outside `[-len, len)` raises IndexError (`none`). -/
def pyIndex {α : Type} (xs : List α) (i : ℤ) : Option α :=
  if 0 ≤ i then
    if i < (xs.length : ℤ) then xs.get? i.toNat else none
  else
    if -(xs.length : ℤ) ≤ i then xs.get? (i + (xs.length : ℤ)).toNat else none

/-- The `data` argument of `reconstruct_streamlines` may be stored 1-D (flat
scalars) or 2-D (one row of 3 scalars per point). -/
inductive DataArray : Type
  | oneD (xs : List ℚ)
  | twoD (rows : List Point)
  deriving DecidableEq

/-- `np.ndarray.flatten` (row-major) restricted to the two layouts above. -/
def DataArray.flatten : DataArray → List ℚ
  | .oneD xs => xs
  | .twoD rows => rows.flatMap point_scalars

/-- Group a flat scalar list into consecutive triples (rows of a reshape to
`(n, 3)`); a trailing chunk shorter than 3 is dropped. -/
def groupTriples : List ℚ → List Point
  | x :: y :: z :: rest => (x, y, z) :: groupTriples rest
  | _ => []

/-- `ndarray.reshape((n, 3))`: succeeds exactly when the array holds `n * 3`
scalars, otherwise raises ValueError (`none`). -/
def reshape3 (xs : List ℚ) (n : ℕ) : Option Streamline :=
  if xs.length = n * 3 then some (groupTriples xs) else none

/-- One iteration of the loop of `reconstruct_streamlines` (lines 339-341):
`streamline = data[offsets[i]*3:offsets[i]*3 + lengths[i]*3]` followed by
`streamline.reshape((lengths[i], 3))`; a failed index lookup or reshape
raises (`none`).  Python slicing clamps to the array bounds, which
`List.drop`/`List.take` model exactly for the nonnegative bounds used here. -/
def reconstruct_one (data : List ℚ) (offsets lengths : List ℕ) (i : ℤ) : Option Streamline :=
  match pyIndex offsets i, pyIndex lengths i with
  | some off, some len =>
      reshape3 (List.take (off * 3 + len * 3 - off * 3) (List.drop (off * 3) data)) len
  | _, _ => none

/-- The `for i in indices` accumulation loop of `reconstruct_streamlines`:
an exception at any index aborts the whole call with no partial result. -/
def reconstruct_loop (data : List ℚ) (offsets lengths : List ℕ) :
    List ℤ → Option (List Streamline)
  | [] => some []
  | i :: rest =>
    match reconstruct_one data offsets lengths i with
    | none => none
    | some s =>
      match reconstruct_loop data offsets lengths rest with
      | none => none
      | some tl => some (s :: tl)

/-- `reconstruct_streamlines(data, offsets, lengths, indices=None)`
(lines 311-343): flatten `data` if it is 2-D, default `indices` to
`np.arange(len(offsets))`, then slice and reshape each requested streamline. -/
def reconstruct_streamlines (data : DataArray) (offsets lengths : List ℕ)
    (indices : Option (List ℤ)) : Option (List Streamline) :=
  let d := data.flatten
  let idxs := match indices with
    | none => (List.range offsets.length).map (fun n : ℕ => (n : ℤ))
    | some l => l
  reconstruct_loop d offsets lengths idxs

/-- The three flat arrays written by `streamlines_to_memmap` (contents of
`data.dat`, `offsets.dat`, `lengths.dat`). -/
structure MemmapFiles where
  data : List ℚ
  offsets : List ℕ
  lengths : List ℕ
  deriving DecidableEq

/-- `streamlines_to_memmap(input_streamlines, strs_dtype)` (lines 219-249):
copies `_data` into a memmap of the chosen float width (the width's value
conversion is the explicit `store` parameter), and `_offsets` / `_lengths`
into int64 / int32 memmaps unchanged. -/
def streamlines_to_memmap (store : ℚ → ℚ) (C : List Streamline) : MemmapFiles :=
  { data := (collection_data C).map store
    offsets := collection_offsets C
    lengths := collection_lengths C }

/-- `reconstruct_streamlines_from_memmap(memmap_filenames, indices, strs_dtype)`
(lines 252-274): reads the three arrays back (the data file is re-read without
a shape, hence 1-D) and delegates to `reconstruct_streamlines`. -/
def reconstruct_streamlines_from_memmap (m : MemmapFiles)
    (indices : Option (List ℤ)) : Option (List Streamline) :=
  reconstruct_streamlines (DataArray.oneD m.data) m.offsets m.lengths indices

/-- A hdf5 group holding the three members; a member may be absent. -/
structure HGroup where
  data : Option DataArray
  offsets : Option (List ℕ)
  lengths : Option (List ℕ)
  deriving DecidableEq

/-- A hdf5 file: its top level acts as a group itself, plus named subgroups
(connection labels such as `LABEL1_LABEL2`). -/
structure HFile where
  root : HGroup
  subgroups : List (String × HGroup)
  deriving DecidableEq

/-- Lines 304-308: `np.array(group['data']).flatten()`, `group['offsets']`,
`group['lengths']`, then `reconstruct_streamlines` on all indices.  A missing
member raises KeyError (`none`). -/
def read_group (g : HGroup) : Option (List Streamline) :=
  match g.data, g.offsets, g.lengths with
  | some d, some o, some l => reconstruct_streamlines (DataArray.oneD d.flatten) o l none
  | _, _, _ => none

/-- `reconstruct_streamlines_from_hdf5(hdf5_file, key)` (lines 277-308): with
a key, an absent key or a keyed group without a `data` member yields an empty
collection; without a key the file's top level is read directly. -/
def reconstruct_streamlines_from_hdf5 (file : HFile) (key : Option String) :
    Option (List Streamline) :=
  match key with
  | some k =>
    match file.subgroups.lookup k with
    | none => some []
    | some g => if g.data.isNone then some [] else read_group g
  | none => read_group file.root

/-- The parts of a `StatefulTractogram` that the scalar-attribute loaders
touch: the streamlines and the two attribute tables (Python dicts, modelled
as insertion-ordered association lists). -/
structure SFT where
  streamlines : List Streamline
  data_per_streamline : List (String × List ℚ)
  data_per_point : List (String × List ℚ)
  deriving DecidableEq

/-- `len(sft)`: the number of streamlines. -/
def SFT.nb_streamlines (s : SFT) : ℕ := s.streamlines.length

/-- `len(sft.streamlines._data)`: the total number of points. -/
def SFT.nb_points (s : SFT) : ℕ := (s.streamlines.map List.length).sum

/-- Python dict assignment `d[k] = v`: replace the value if the key exists,
otherwise append the binding. -/
def dict_set : List (String × List ℚ) → String → List ℚ → List (String × List ℚ)
  | [], k, v => [(k, v)]
  | (k0, v0) :: rest, k, v =>
    if k0 = k then (k, v) :: rest else (k0, v0) :: dict_set rest k v

/-- The `for i, file in enumerate(dps_files)` loop of `load_dps_files_as_dps`
(lines 147-166), with each file already resolved to its key and loaded values.
`parser.error` aborts the process (`none`); the tractogram is mutated in
place, so the state reached when the error fires is returned alongside. -/
def load_dps_loop (ow : Bool) : SFT → List (String × List ℚ) → List String →
    SFT × Option (List String)
  | sft, [], acc => (sft, some acc.reverse)
  | sft, (key, d) :: rest, acc =>
    if (sft.data_per_streamline.lookup key).isSome && !ow then (sft, none)
    else if d.length ≠ sft.nb_streamlines then (sft, none)
    else
      load_dps_loop ow
        { sft with data_per_streamline := dict_set sft.data_per_streamline key d }
        rest (key :: acc)

/-- `load_dps_files_as_dps(parser, dps_files, sft, keys, overwrite)`
(lines 120-167).  A file is a pair of its filename-derived key and its loaded
values; when `keys` is given it must have one name per file and replaces the
filename-derived keys. -/
def load_dps_files_as_dps (dps_files : List (String × List ℚ)) (sft : SFT)
    (keys : Option (List String)) (ow : Bool) : SFT × Option (List String) :=
  match keys with
  | some ks =>
    if ks.length ≠ dps_files.length then (sft, none)
    else load_dps_loop ow sft (ks.zip (dps_files.map Prod.snd)) []
  | none => load_dps_loop ow sft dps_files []

/-- The loop of `load_dpp_files_as_dpp` (lines 197-215).  The source checks
the key against `sft.data_per_streamline` here as well (line 204), requires
one value per point, and writes into `sft.data_per_point`. -/
def load_dpp_loop (ow : Bool) : SFT → List (String × List ℚ) → List String →
    SFT × Option (List String)
  | sft, [], acc => (sft, some acc.reverse)
  | sft, (key, d) :: rest, acc =>
    if (sft.data_per_streamline.lookup key).isSome && !ow then (sft, none)
    else if d.length ≠ sft.nb_points then (sft, none)
    else
      load_dpp_loop ow
        { sft with data_per_point := dict_set sft.data_per_point key d }
        rest (key :: acc)

/-- `load_dpp_files_as_dpp(parser, dpp_files, sft, keys, overwrite)`
(lines 170-216). -/
def load_dpp_files_as_dpp (dpp_files : List (String × List ℚ)) (sft : SFT)
    (keys : Option (List String)) (ow : Bool) : SFT × Option (List String) :=
  match keys with
  | some ks =>
    if ks.length ≠ dpp_files.length then (sft, none)
    else load_dpp_loop ow sft (ks.zip (dpp_files.map Prod.snd)) []
  | none => load_dpp_loop ow sft dpp_files []

/-- The errors `fetch_data` can raise per dataset: `RuntimeError` when the
download is not a valid zip archive, `ValueError` on an MD5 mismatch of a
valid archive, `NotImplementedError` for a non-zip target. -/
inductive FetchError : Type
  | corruptFetch (f : String)
  | md5Mismatch (f : String)
  | notZip
  deriving DecidableEq

/-- The observables of a downloaded file that the checksum check reads: its
MD5 digest and whether `zipfile.ZipFile` accepts it. -/
structure Download where
  md5 : String
  isValidZip : Bool
  deriving DecidableEq

/-- Lines 108-117 of `fetch_data`: hash the downloaded bytes; on mismatch,
first try to open the file as a zip — `BadZipFile` becomes the corrupt-fetch
`RuntimeError`, otherwise the MD5-mismatch `ValueError` is raised. -/
def verify_download (f : String) (expected : String) (d : Download) :
    Except FetchError Unit :=
  if d.md5 ≠ expected then
    if !d.isValidZip then Except.error (FetchError.corruptFetch f)
    else Except.error (FetchError.md5Mismatch f)
  else Except.ok ()

/-- The body of `fetch_data`'s per-key loop (lines 94-140): skip a dataset
already on disk, reject a non-zip target, otherwise download once, verify
once (no retry) and extract.  Extraction is abstracted as success. -/
def fetch_one (f : String) (expected : String) (alreadyOnDisk : Bool)
    (isZipExt : Bool) (d : Download) : Except FetchError Unit :=
  if alreadyOnDisk then Except.ok ()
  else if isZipExt then
    match verify_download f expected d with
    | Except.error e => Except.error e
    | Except.ok _ => Except.ok ()
  else Except.error FetchError.notZip

/-- Elementwise application of the storage float conversion to a point. -/
def point_store (store : ℚ → ℚ) (p : Point) : Point :=
  (store p.1, store p.2.1, store p.2.2)

/-- Elementwise application of the storage float conversion to a streamline:
what "equal within the tolerance of the chosen storage width" denotes. -/
def streamline_store (store : ℚ → ℚ) (s : Streamline) : Streamline :=
  s.map (point_store store)

theorem flatten_streamline_cons (p : Point) (s : Streamline) :
    flatten_streamline (p :: s) = p.1 :: p.2.1 :: p.2.2 :: flatten_streamline s := by
  simp [flatten_streamline, point_scalars]

theorem flatten_streamline_map_length (store : ℚ → ℚ) (s : Streamline) :
    ((flatten_streamline s).map store).length = s.length * 3 := by
  induction s with
  | nil => rfl
  | cons p rest ih => rw [flatten_streamline_cons]; simp at ih ⊢; omega

theorem groupTriples_flatten_map (store : ℚ → ℚ) (s : Streamline) :
    groupTriples ((flatten_streamline s).map store) = streamline_store store s := by
  induction s with
  | nil => rfl
  | cons p rest ih =>
    rw [flatten_streamline_cons]
    simp only [List.map_cons, groupTriples, streamline_store, List.map]
    rw [← streamline_store]
    exact congrArg _ ih

theorem collection_data_cons (s : Streamline) (cs : List Streamline) :
    collection_data (s :: cs) = flatten_streamline s ++ collection_data cs := by
  simp [collection_data]

theorem collection_lengths_cons (s : Streamline) (cs : List Streamline) :
    collection_lengths (s :: cs) = s.length :: collection_lengths cs := rfl

theorem collection_lengths_length (C : List Streamline) :
    (collection_lengths C).length = C.length := by
  simp [collection_lengths]

theorem offsets_from_lengths_length (ls : List ℕ) (acc : ℕ) :
    (offsets_from_lengths ls acc).length = ls.length := by
  induction ls generalizing acc with
  | nil => rfl
  | cons l rest ih => simp [offsets_from_lengths, ih]

theorem collection_offsets_length (C : List Streamline) :
    (collection_offsets C).length = C.length := by
  rw [collection_offsets, offsets_from_lengths_length, collection_lengths_length]

theorem pyIndex_natCast {α : Type} (xs : List α) (j : ℕ) :
    pyIndex xs (j : ℤ) = xs.get? j := by
  unfold pyIndex
  rw [if_pos (Int.natCast_nonneg j)]
  by_cases h : j < xs.length
  · rw [if_pos (by exact_mod_cast h), Int.toNat_natCast]
  · rw [if_neg (by exact_mod_cast h)]
    exact (List.get?_eq_none.mpr (by omega)).symm

theorem pyIndex_oob {α : Type} (xs : List α) (i : ℤ)
    (h : (xs.length : ℤ) ≤ i ∨ i < -(xs.length : ℤ)) : pyIndex xs i = none := by
  unfold pyIndex
  rcases h with h | h
  · rw [if_pos (le_trans (Int.natCast_nonneg _) h), if_neg (not_lt.mpr h)]
  · rw [if_neg (by omega), if_neg (by omega)]

theorem reconstruct_one_get? (D : List ℚ) (os ls : List ℕ) (j : ℕ) :
    reconstruct_one D os ls (j : ℤ) =
      match os.get? j, ls.get? j with
      | some off, some len =>
          reshape3 (List.take (off * 3 + len * 3 - off * 3) (List.drop (off * 3) D)) len
      | _, _ => none := by
  unfold reconstruct_one
  rw [pyIndex_natCast, pyIndex_natCast]

theorem reconstruct_one_oob (D : List ℚ) (os ls : List ℕ) (i : ℤ)
    (h : (os.length : ℤ) ≤ i ∨ i < -(os.length : ℤ)) :
    reconstruct_one D os ls i = none := by
  unfold reconstruct_one
  rw [pyIndex_oob os i h]

theorem reconstruct_one_cons_succ (D : List ℚ) (a : ℕ) (os : List ℕ) (b : ℕ)
    (ls : List ℕ) (j : ℕ) :
    reconstruct_one D (a :: os) (b :: ls) ((j + 1 : ℕ) : ℤ) =
      reconstruct_one D os ls (j : ℤ) := by
  rw [reconstruct_one_get?, reconstruct_one_get?]
  rfl

/-- Core index lemma: over the flat encoding of a collection (with storage
conversion `store`, offsets starting at `acc`, and an irrelevant data stub
`P` of `acc * 3` scalars in front), reconstructing index `j` recovers the
`j`-th streamline up to the storage conversion. -/
theorem reconstruct_one_encoded (store : ℚ → ℚ) :
    ∀ (C : List Streamline) (j : ℕ) (acc : ℕ) (P : List ℚ),
      j < C.length → P.length = acc * 3 →
      reconstruct_one (P ++ (collection_data C).map store)
          (offsets_from_lengths (collection_lengths C) acc)
          (collection_lengths C) (j : ℤ)
        = some (streamline_store store (C.getD j [])) := by
  intro C
  induction C with
  | nil => intro j acc P hj _; simp at hj
  | cons s cs ih =>
    intro j acc P hj hP
    rw [collection_lengths_cons]
    cases j with
    | zero =>
      rw [offsets_from_lengths, reconstruct_one_get?]
      simp only [List.get?]
      rw [collection_data_cons, List.map_append, Nat.add_sub_cancel_left,
        ← List.append_assoc, List.getD_cons_zero]
      have hPA : (P ++ (flatten_streamline s).map store).length = acc * 3 + s.length * 3 := by
        rw [List.length_append, hP, flatten_streamline_map_length]
      have hdrop : acc * 3 = (P : List ℚ).length := hP.symm
      rw [show List.drop (acc * 3) ((P ++ (flatten_streamline s).map store) ++
            (collection_data cs).map store)
          = (flatten_streamline s).map store ++ (collection_data cs).map store by
        rw [hdrop, List.append_assoc, List.drop_left]]
      rw [List.take_left' (flatten_streamline_map_length store s)]
      rw [reshape3, if_pos (flatten_streamline_map_length store s),
        groupTriples_flatten_map]
    | succ j =>
      rw [offsets_from_lengths, reconstruct_one_cons_succ, List.getD_cons_succ,
        collection_data_cons, List.map_append, ← List.append_assoc]
      exact ih j (acc + s.length) (P ++ (flatten_streamline s).map store)
        (by simpa using hj)
        (by rw [List.length_append, hP, flatten_streamline_map_length, Nat.add_mul])

/-- Specialization to the memmap encoding itself. -/
theorem reconstruct_one_memmap (store : ℚ → ℚ) (C : List Streamline) (j : ℕ)
    (hj : j < C.length) :
    reconstruct_one ((collection_data C).map store) (collection_offsets C)
        (collection_lengths C) (j : ℤ)
      = some (streamline_store store (C.getD j [])) := by
  have h := reconstruct_one_encoded store C j 0 [] hj rfl
  simpa using h

theorem reconstruct_loop_map (D : List ℚ) (os ls : List ℕ) (g : ℤ → Streamline) :
    ∀ (idxs : List ℤ), (∀ i ∈ idxs, reconstruct_one D os ls i = some (g i)) →
      reconstruct_loop D os ls idxs = some (idxs.map g) := by
  intro idxs
  induction idxs with
  | nil => intro _; rfl
  | cons i rest ih =>
    intro h
    rw [reconstruct_loop, h i (List.mem_cons_self i rest),
      ih (fun x hx => h x (List.mem_cons_of_mem i hx))]
    rfl

theorem reconstruct_loop_none (D : List ℚ) (os ls : List ℕ) (i : ℤ) :
    ∀ (idxs : List ℤ), i ∈ idxs → reconstruct_one D os ls i = none →
      reconstruct_loop D os ls idxs = none := by
  intro idxs
  induction idxs with
  | nil => intro h; simp at h
  | cons a rest ih =>
    intro hmem hnone
    rcases List.mem_cons.mp hmem with h | h
    · subst h
      rw [reconstruct_loop, hnone]
    · rw [reconstruct_loop]
      cases reconstruct_one D os ls a with
      | none => rfl
      | some s => rw [ih h hnone]

theorem range_map_getD {α β : Type} (f : α → β) (d : α) :
    ∀ (L : List α), (List.range L.length).map (fun j => f (L.getD j d)) = L.map f := by
  intro L
  induction L with
  | nil => rfl
  | cons a l ih =>
    rw [List.length_cons, List.range_succ_eq_map, List.map_cons, List.map_map]
    have hc : ((fun j => f ((a :: l).getD j d)) ∘ Nat.succ) = fun j => f (l.getD j d) := by
      funext j
      show f ((a :: l).getD (j + 1) d) = f (l.getD j d)
      rw [List.getD_cons_succ]
    rw [List.getD_cons_zero, hc, ih, List.map_cons]

theorem reconstruct_streamlines_some (data : DataArray) (os ls : List ℕ)
    (idxs : List ℤ) :
    reconstruct_streamlines data os ls (some idxs)
      = reconstruct_loop data.flatten os ls idxs := rfl

theorem reconstruct_streamlines_none (data : DataArray) (os ls : List ℕ) :
    reconstruct_streamlines data os ls none
      = reconstruct_loop data.flatten os ls
          ((List.range os.length).map (fun n : ℕ => (n : ℤ))) := rfl

theorem get?_eq_some_getD {α : Type} :
    ∀ (l : List α) (n : ℕ) (d : α), n < l.length → l.get? n = some (l.getD n d) := by
  intro l
  induction l with
  | nil => intro n d h; simp at h
  | cons a t ih =>
    intro n d h
    cases n with
    | zero => rfl
    | succ m => exact ih m d (by simpa using h)

/-- C1: externalizing a collection to the flat (data, offsets, lengths)
memmap files and reconstructing with `indices = None` yields the collection
itself, in order, with each point's coordinates passed through the storage
width's value conversion `store` (exactness "within the tolerance of the
chosen storage width"); in particular the streamline count and order are
preserved. -/
theorem memmap_roundtrip (store : ℚ → ℚ) (C : List Streamline) :
    reconstruct_streamlines_from_memmap (streamlines_to_memmap store C) none
      = some (C.map (streamline_store store)) := by
  unfold reconstruct_streamlines_from_memmap streamlines_to_memmap
  rw [reconstruct_streamlines_none]
  show reconstruct_loop ((collection_data C).map store) (collection_offsets C)
      (collection_lengths C)
      ((List.range (collection_offsets C).length).map (fun n : ℕ => (n : ℤ))) = _
  rw [collection_offsets_length]
  have hg : ∀ i ∈ (List.range C.length).map (fun n : ℕ => (n : ℤ)),
      reconstruct_one ((collection_data C).map store) (collection_offsets C)
          (collection_lengths C) i
        = some ((fun i : ℤ => streamline_store store (C.getD i.toNat [])) i) := by
    intro i hi
    rcases List.mem_map.mp hi with ⟨j, hj, rfl⟩
    rw [reconstruct_one_memmap store C j (List.mem_range.mp hj)]
    rfl
  rw [reconstruct_loop_map _ _ _ _ _ hg, List.map_map]
  have hc : ((fun i : ℤ => streamline_store store (C.getD i.toNat [])) ∘ fun n : ℕ => (n : ℤ))
      = fun j : ℕ => streamline_store store (C.getD j []) := by
    funext j
    show streamline_store store (C.getD ((j : ℤ)).toNat []) = _
    rw [Int.toNat_natCast]
  rw [hc, range_map_getD]

/-- C2: over the flat encoding of a collection, reconstruction with an
explicit index list whose entries all lie in `[0, len(C))` returns exactly
the streamlines those indices name, in the order given — duplicates and
reorderings honored — and the empty index list yields the empty collection
without failing. -/
theorem reconstruct_indices_fidelity (store : ℚ → ℚ) (C : List Streamline)
    (idxs : List ℤ) (h : ∀ i ∈ idxs, 0 ≤ i ∧ i < (C.length : ℤ)) :
    reconstruct_streamlines_from_memmap (streamlines_to_memmap store C) (some idxs)
      = some (idxs.map (fun i => streamline_store store (C.getD i.toNat []))) := by
  unfold reconstruct_streamlines_from_memmap streamlines_to_memmap
  rw [reconstruct_streamlines_some]
  show reconstruct_loop ((collection_data C).map store) (collection_offsets C)
      (collection_lengths C) idxs = _
  refine reconstruct_loop_map _ _ _ _ _ ?_
  intro i hi
  obtain ⟨h0, hlt⟩ := h i hi
  have hj : i.toNat < C.length := by omega
  have hcast : ((i.toNat : ℕ) : ℤ) = i := Int.toNat_of_nonneg h0
  rw [← hcast, reconstruct_one_memmap store C i.toNat hj]
  rfl

/-- C2 witness: the spec's own size-3 example with indices `[2, 0, 2]`. -/
theorem reconstruct_indices_fidelity_witness :
    reconstruct_streamlines_from_memmap
        (streamlines_to_memmap (fun x => x)
          [[(0, 0, 0), (1, 0, 0)], [(2, 2, 2)], [(6, 6, 6)]])
        (some [2, 0, 2])
      = some [[(6, 6, 6)], [(0, 0, 0), (1, 0, 0)], [(6, 6, 6)]] := by
  have h := reconstruct_indices_fidelity (fun x => x)
    [[(0, 0, 0), (1, 0, 0)], [(2, 2, 2)], [(6, 6, 6)]] [2, 0, 2] (by decide)
  rw [h]
  decide

/-- C3 counterexample: the index `-1` lies outside `[0, len(offsets))`, yet
numpy's negative-index wrapping makes reconstruction succeed (returning the
last streamline) instead of failing with an out-of-range error. -/
theorem negative_index_not_rejected :
    reconstruct_streamlines_from_memmap
        (streamlines_to_memmap (fun x => x) [[(2, 2, 2)]]) (some [-1])
      = some [[(2, 2, 2)]] := by decide

/-- C3 amended: reconstruction fails with an out-of-range error (and returns
no partial result) whenever some requested index lies outside
`[-len(offsets), len(offsets))` — numpy wraps negative indices from the end —
in particular an index equal to the collection size fails. -/
theorem out_of_range_rejected (data : List ℚ) (offsets lengths : List ℕ)
    (idxs : List ℤ) (i : ℤ) (hmem : i ∈ idxs)
    (hout : (offsets.length : ℤ) ≤ i ∨ i < -(offsets.length : ℤ)) :
    reconstruct_streamlines (DataArray.oneD data) offsets lengths (some idxs) = none := by
  rw [reconstruct_streamlines_some]
  exact reconstruct_loop_none _ _ _ i idxs hmem (reconstruct_one_oob _ _ _ i hout)

/-- C3 witness: an index equal to the collection size is rejected. -/
theorem out_of_range_rejected_witness :
    reconstruct_streamlines (DataArray.oneD [0, 0, 0]) [0] [1] (some [1]) = none :=
  out_of_range_rejected [0, 0, 0] [0] [1] [1] 1 (by decide) (by decide)

/-- C4: the collection `[[[0,0,0],[1,0,0]], [[2,2,2]]]` encodes to
`data=[0,0,0,1,0,0,2,2,2]`, `offsets=[0,2]`, `lengths=[2,1]`; reconstructing
index `[1]` from that encoding returns `[[2,2,2]]`; and in general, each
in-range requested index `i` reconstructs to
`data[offsets[i]*3 : offsets[i]*3 + lengths[i]*3]` reshaped into `lengths[i]`
rows of 3 scalars. -/
theorem end_to_end_example :
    (streamlines_to_memmap (fun x => x) [[(0, 0, 0), (1, 0, 0)], [(2, 2, 2)]]
        = { data := [0, 0, 0, 1, 0, 0, 2, 2, 2], offsets := [0, 2], lengths := [2, 1] }
      ∧ reconstruct_streamlines_from_memmap
          { data := [0, 0, 0, 1, 0, 0, 2, 2, 2], offsets := [0, 2], lengths := [2, 1] }
          (some [1])
        = some [[(2, 2, 2)]])
    ∧ ∀ (data : List ℚ) (offsets lengths : List ℕ) (i : ℕ),
        i < offsets.length → i < lengths.length →
        reconstruct_one data offsets lengths (i : ℤ)
          = reshape3 (List.take (lengths.getD i 0 * 3)
              (List.drop (offsets.getD i 0 * 3) data)) (lengths.getD i 0) := by
  refine ⟨⟨by decide, by decide⟩, ?_⟩
  intro data offsets lengths i h1 h2
  rw [reconstruct_one_get?, get?_eq_some_getD offsets i 0 h1,
    get?_eq_some_getD lengths i 0 h2]
  show reshape3 (List.take (offsets.getD i 0 * 3 + lengths.getD i 0 * 3 - offsets.getD i 0 * 3)
      (List.drop (offsets.getD i 0 * 3) data)) (lengths.getD i 0) = _
  rw [Nat.add_sub_cancel_left]

/-- C4 witness for the general slicing clause, at a concrete in-range index. -/
theorem end_to_end_example_witness :
    reconstruct_one [5, 5, 5, 7, 7, 7] [0, 1] [1, 1] ((1 : ℕ) : ℤ)
      = reshape3 (List.take (List.getD [1, 1] 1 0 * 3)
          (List.drop (List.getD [0, 1] 1 0 * 3) [5, 5, 5, 7, 7, 7]))
          (List.getD [1, 1] 1 0) :=
  end_to_end_example.2 [5, 5, 5, 7, 7, 7] [0, 1] [1, 1] 1 (by decide) (by decide)

/-- C5: for every offsets/lengths pair and every index choice, reconstruction
from a 2-D (N rows of 3 scalars) data array coincides with reconstruction
from the equivalent flattened 1-D array — both layouts accepted
transparently. -/
theorem twoD_equals_flattened_oneD (rows : List Point) (offsets lengths : List ℕ)
    (indices : Option (List ℤ)) :
    reconstruct_streamlines (DataArray.twoD rows) offsets lengths indices
      = reconstruct_streamlines (DataArray.oneD (rows.flatMap point_scalars))
          offsets lengths indices := rfl

/-- C6: reading from a hierarchical archive with a sub-key returns the empty
collection — without raising — both when the key is absent from the archive
and when the keyed group lacks its `data` member. -/
theorem missing_key_returns_empty (file : HFile) (k : String) :
    (file.subgroups.lookup k = none →
      reconstruct_streamlines_from_hdf5 file (some k) = some [])
    ∧ (∀ g : HGroup, file.subgroups.lookup k = some g → g.data = none →
      reconstruct_streamlines_from_hdf5 file (some k) = some []) := by
  constructor
  · intro h
    simp [reconstruct_streamlines_from_hdf5, h]
  · intro g hg hd
    simp [reconstruct_streamlines_from_hdf5, hg, hd]

/-- C6 witness: a concrete archive, queried with an absent key and with a key
whose group has no `data` member. -/
theorem missing_key_returns_empty_witness :
    reconstruct_streamlines_from_hdf5
        ⟨⟨none, none, none⟩, [("x", ⟨none, some [0], some [1]⟩)]⟩ (some "y") = some []
    ∧ reconstruct_streamlines_from_hdf5
        ⟨⟨none, none, none⟩, [("x", ⟨none, some [0], some [1]⟩)]⟩ (some "x") = some [] :=
  ⟨(missing_key_returns_empty _ "y").1 (by decide),
   (missing_key_returns_empty _ "x").2 ⟨none, some [0], some [1]⟩ (by decide) rfl⟩

/-- C10: with no sub-key given, the empty-collection fallback does not apply:
a top-level group lacking `data`, `offsets` or `lengths` makes the read raise
a missing-member error (`none`), not return an empty collection. -/
theorem no_key_missing_member_raises (file : HFile)
    (h : file.root.data = none ∨ file.root.offsets = none ∨ file.root.lengths = none) :
    reconstruct_streamlines_from_hdf5 file none = none := by
  cases hd : file.root.data <;> cases ho : file.root.offsets <;>
    cases hl : file.root.lengths <;>
    simp_all [reconstruct_streamlines_from_hdf5, read_group]

/-- C10 witness: a file whose top level has `data` and `offsets` but no
`lengths` member raises. -/
theorem no_key_missing_member_raises_witness :
    reconstruct_streamlines_from_hdf5
        ⟨⟨some (DataArray.oneD []), some [0], none⟩, []⟩ none = none :=
  no_key_missing_member_raises _ (Or.inr (Or.inr rfl))

/-- C7 counterexample: with two per-streamline files where only the second
has a wrong value count, the loader reports the usage error but the first
file's key has already been attached in place — the attribute table is not
left unmodified. -/
theorem dps_mismatch_modifies :
    (load_dps_files_as_dps [("a", [1, 2]), ("b", [1])]
        ⟨[[(0, 0, 0)], [(1, 1, 1)]], [], []⟩ none false).2 = none
    ∧ (load_dps_files_as_dps [("a", [1, 2]), ("b", [1])]
        ⟨[[(0, 0, 0)], [(1, 1, 1)]], [], []⟩ none false).1.data_per_streamline
      = [("a", [1, 2])] := by decide

theorem load_dps_loop_append_mismatch (ow : Bool) :
    ∀ (pre : List (String × List ℚ)) (sft sft2 : SFT) (acc ks : List String)
      (k : String) (d : List ℚ) (rest : List (String × List ℚ)),
      load_dps_loop ow sft pre acc = (sft2, some ks) →
      d.length ≠ sft.nb_streamlines →
      load_dps_loop ow sft (pre ++ (k, d) :: rest) acc = (sft2, none) := by
  intro pre
  induction pre with
  | nil =>
    intro sft sft2 acc ks k d rest hpre hd
    simp only [load_dps_loop] at hpre
    injection hpre with h1 h2
    subst h1
    simp only [List.nil_append, load_dps_loop]
    split_ifs with h1
    · rfl
    · rfl
  | cons f pre ih =>
    intro sft sft2 acc ks k d rest hpre hd
    obtain ⟨k0, d0⟩ := f
    simp only [List.cons_append, load_dps_loop] at hpre ⊢
    split_ifs at hpre ⊢ with h1 h2
    · simp at hpre
    · simp at hpre
    · exact ih _ _ _ _ _ _ _ hpre hd

theorem load_dpp_loop_append_mismatch (ow : Bool) :
    ∀ (pre : List (String × List ℚ)) (sft sft2 : SFT) (acc ks : List String)
      (k : String) (d : List ℚ) (rest : List (String × List ℚ)),
      load_dpp_loop ow sft pre acc = (sft2, some ks) →
      d.length ≠ sft.nb_points →
      load_dpp_loop ow sft (pre ++ (k, d) :: rest) acc = (sft2, none) := by
  intro pre
  induction pre with
  | nil =>
    intro sft sft2 acc ks k d rest hpre hd
    simp only [load_dpp_loop] at hpre
    injection hpre with h1 h2
    subst h1
    simp only [List.nil_append, load_dpp_loop]
    split_ifs with h1
    · rfl
    · rfl
  | cons f pre ih =>
    intro sft sft2 acc ks k d rest hpre hd
    obtain ⟨k0, d0⟩ := f
    simp only [List.cons_append, load_dpp_loop] at hpre ⊢
    split_ifs at hpre ⊢ with h1 h2
    · simp at hpre
    · simp at hpre
    · exact ih _ _ _ _ _ _ _ hpre hd

/-- C7 amended: when a per-streamline (resp. per-point) scalar file's value
count mismatches the required count, the loader reports a usage error on
reaching that file, before attaching that file's data, and no later file is
processed; but because the tractogram is mutated in place file by file, files
earlier in the list that passed validation have already been attached and
remain attached. -/
theorem scalar_mismatch_usage_error :
    (∀ (sft sft2 : SFT) (ow : Bool) (pre rest : List (String × List ℚ))
        (ks : List String) (k : String) (d : List ℚ),
        load_dps_files_as_dps pre sft none ow = (sft2, some ks) →
        d.length ≠ sft.nb_streamlines →
        load_dps_files_as_dps (pre ++ (k, d) :: rest) sft none ow = (sft2, none))
    ∧ (∀ (sft sft2 : SFT) (ow : Bool) (pre rest : List (String × List ℚ))
        (ks : List String) (k : String) (d : List ℚ),
        load_dpp_files_as_dpp pre sft none ow = (sft2, some ks) →
        d.length ≠ sft.nb_points →
        load_dpp_files_as_dpp (pre ++ (k, d) :: rest) sft none ow = (sft2, none)) := by
  constructor
  · intro sft sft2 ow pre rest ks k d hpre hd
    exact load_dps_loop_append_mismatch ow pre sft sft2 [] ks k d rest hpre hd
  · intro sft sft2 ow pre rest ks k d hpre hd
    exact load_dpp_loop_append_mismatch ow pre sft sft2 [] ks k d rest hpre hd

/-- C7 witness: a valid first file followed by a mismatching second file, for
both the per-streamline and the per-point loader. -/
theorem scalar_mismatch_usage_error_witness :
    load_dps_files_as_dps [("a", [1, 2]), ("b", [1])]
        ⟨[[(0, 0, 0)], [(1, 1, 1)]], [], []⟩ none false
      = (⟨[[(0, 0, 0)], [(1, 1, 1)]], [("a", [1, 2])], []⟩, none)
    ∧ load_dpp_files_as_dpp [("c", [1, 2]), ("e", [1])]
        ⟨[[(0, 0, 0)], [(1, 1, 1)]], [], []⟩ none false
      = (⟨[[(0, 0, 0)], [(1, 1, 1)]], [], [("c", [1, 2])]⟩, none) :=
  ⟨scalar_mismatch_usage_error.1 ⟨[[(0, 0, 0)], [(1, 1, 1)]], [], []⟩
      ⟨[[(0, 0, 0)], [(1, 1, 1)]], [("a", [1, 2])], []⟩ false
      [("a", [1, 2])] [] ["a"] "b" [1] (by decide) (by decide),
   scalar_mismatch_usage_error.2 ⟨[[(0, 0, 0)], [(1, 1, 1)]], [], []⟩
      ⟨[[(0, 0, 0)], [(1, 1, 1)]], [], [("c", [1, 2])]⟩ false
      [("c", [1, 2])] [] ["c"] "e" [1] (by decide) (by decide)⟩

/-- C8: when a downloaded file's MD5 digest mismatches the expected value,
the fetch of that dataset fails terminally — with the corrupt-fetch error if
the content is not a valid zip archive, and with the checksum-verification
error if it is — and the definition applies the verification exactly once,
with no retry. -/
theorem checksum_mismatch_terminal (f expected : String) (d : Download)
    (h : d.md5 ≠ expected) :
    (d.isValidZip = false →
      fetch_one f expected false true d = Except.error (FetchError.corruptFetch f))
    ∧ (d.isValidZip = true →
      fetch_one f expected false true d = Except.error (FetchError.md5Mismatch f)) := by
  constructor <;> intro hz <;> simp [fetch_one, verify_download, h, hz]

/-- C8 witness: both failure shapes at concrete digests. -/
theorem checksum_mismatch_terminal_witness :
    fetch_one "bundles.zip" "abc" false true ⟨"def", false⟩
      = Except.error (FetchError.corruptFetch "bundles.zip")
    ∧ fetch_one "bundles.zip" "abc" false true ⟨"deg", true⟩
      = Except.error (FetchError.md5Mismatch "bundles.zip") :=
  ⟨(checksum_mismatch_terminal "bundles.zip" "abc" ⟨"def", false⟩ (by decide)).1 rfl,
   (checksum_mismatch_terminal "bundles.zip" "abc" ⟨"deg", true⟩ (by decide)).2 rfl⟩

end Scilpy
